import Mathlib

/-!
Verification of the bookstore record store.

The definitions below are a shallow embedding of the Python sources:

* `src/app/models.py` — the pydantic models `BookBase`/`BookCreate`/
  `BookUpdate`/`Book` and their field constraints.  A pydantic v2 field of an
  update model is tri-state: it can be *unset* (absent from the request body),
  or *set* to a value of its declared `Optional` type — which includes an
  explicit `null`.  `Patch` mirrors that tri-state.  Because
  `Book.model_copy(update=...)` performs **no validation**, a stored `Book`
  field can end up holding `None`; the stored `Book` therefore has
  `Option`-typed fields, with `none` playing the role of Python `None`.
* `src/app/database.py` — the `BookDatabase` class: an insertion-ordered
  mapping (Python `dict`) from `int` ids to `Book`, plus a monotone counter
  `_next_id` starting at 1.  Python dicts keep insertion order, key
  assignment on an existing key keeps its position, so the mapping is
  modelled as an association list with `dictInsert` (replace in place, or
  append when fresh), `dictGet` (first match) and `dictRemove`.
* `src/main.py` — the legacy list-backed application whose `add_book`
  endpoint accepts a full `Book` payload, caller-supplied `id` included, and
  appends it to the global `books` list unchecked (`LegacyBook`, `add_book`).

Python ints are unbounded, so ids and the counter are `Nat` (the counter
starts at 1 and only increments).  `price` is a Python float used only for
storage and the comparison `> 0`; it is modelled as `Rat`.
-/

namespace Bookstore

/-- A stored book record (`Book` in `src/app/models.py`).  Fields other than
`id` are `Option`-typed because `model_copy(update=...)` in
`BookDatabase.update` bypasses validation, so an explicit `null` in a patch
is stored as `None`. -/
structure Book where
  id : Nat
  title : Option String
  author : Option String
  price : Option Rat
  available : Option Bool
deriving DecidableEq, Repr

/-- Payload of a create request (`BookCreate` in `src/app/models.py`), after
pydantic validation: all four fields present (`available` defaulted to `True`
when omitted), no `id` field at all. -/
structure BookCreate where
  title : String
  author : String
  price : Rat
  available : Bool
deriving DecidableEq, Repr

/-- Tri-state field of a pydantic v2 update model: absent from the request
body (`unset`), or explicitly sent (`set`) with a value of the field's
`Optional` type — `set none` is an explicit JSON `null`. -/
inductive Patch (α : Type) where
  | unset : Patch α
  | set (v : Option α) : Patch α
deriving DecidableEq, Repr

/-- Payload of an update request (`BookUpdate` in `src/app/models.py`): every
field optional, each either unset or explicitly sent. -/
structure BookUpdate where
  title : Patch String
  author : Patch String
  price : Patch Rat
  available : Patch Bool
deriving DecidableEq, Repr

/-- `title: str = Field(..., min_length=1, max_length=200)`. -/
def validTitle (t : String) : Bool :=
  1 ≤ t.length && t.length ≤ 200

/-- `author: str = Field(..., min_length=1, max_length=100)`. -/
def validAuthor (a : String) : Bool :=
  1 ≤ a.length && a.length ≤ 100

/-- `price: float = Field(..., gt=0)`. -/
def validPrice (p : Rat) : Bool :=
  0 < p

/-- Pydantic validation of a `BookCreate` payload (constraints inherited from
`BookBase`). -/
def BookCreate.valid (b : BookCreate) : Bool :=
  validTitle b.title && validAuthor b.author && validPrice b.price

/-- Pydantic validation of one tri-state field of `BookUpdate`: an absent
field passes, an explicit `null` passes (the declared type is `Optional`),
and a sent value must satisfy the field's constraint. -/
def Patch.fieldValid (ok : α → Bool) : Patch α → Bool
  | .unset => true
  | .set none => true
  | .set (some v) => ok v

/-- Pydantic validation of a `BookUpdate` payload. -/
def BookUpdate.valid (p : BookUpdate) : Bool :=
  p.title.fieldValid validTitle && p.author.fieldValid validAuthor &&
    p.price.fieldValid validPrice && p.available.fieldValid (fun _ => true)

/-- Stricter validity of one tri-state field: absent, or sent with a non-null
value satisfying the constraint.  This is *not* what pydantic enforces on
`BookUpdate` (an explicit `null` passes there); it is the side condition
under which the store's records keep satisfying the `BookBase` constraints. -/
def Patch.fieldStrictValid (ok : α → Bool) : Patch α → Bool
  | .unset => true
  | .set none => false
  | .set (some v) => ok v

/-- Every field of the patch is absent or sent with a valid non-null value. -/
def BookUpdate.strictValid (p : BookUpdate) : Bool :=
  p.title.fieldStrictValid validTitle && p.author.fieldStrictValid validAuthor &&
    p.price.fieldStrictValid validPrice && p.available.fieldStrictValid (fun _ => true)

/-- The merge rule of `model_copy(update=...)` for one field: an unset patch
field keeps the stored value, a sent patch field (its explicit `null`
included) replaces it. -/
def Patch.apply (p : Patch α) (old : Option α) : Option α :=
  match p with
  | .unset => old
  | .set v => v

/-- The insertion-ordered mapping backing the store (`self._books`, a Python
`dict`), as an association list whose keys are kept distinct by the
operations below. -/
abbrev Books := List (Nat × Book)

/-- `self._books.get(book_id)`: first binding of the key, if any. -/
def dictGet (k : Nat) : Books → Option Book
  | [] => none
  | (k', v) :: rest => if k' = k then some v else dictGet k rest

/-- `self._books[book_id] = book`: replace the binding in place when the key
is present (Python dicts keep the original position), append when fresh. -/
def dictInsert (k : Nat) (v : Book) : Books → Books
  | [] => [(k, v)]
  | (k', v') :: rest =>
    if k' = k then (k, v) :: rest else (k', v') :: dictInsert k v rest

/-- `del self._books[book_id]`: drop the binding of the key. -/
def dictRemove (k : Nat) : Books → Books
  | [] => []
  | (k', v) :: rest => if k' = k then rest else (k', v) :: dictRemove k rest

/-- `book_id in self._books`. -/
def dictContains (k : Nat) (bs : Books) : Bool :=
  (dictGet k bs).isSome

/-- State of `BookDatabase` (`src/app/database.py`): the id-keyed mapping and
the id counter. -/
structure BookDatabase where
  books : Books
  next_id : Nat
deriving DecidableEq, Repr

/-- `BookDatabase.__init__`: empty mapping, counter at 1. -/
def BookDatabase.init : BookDatabase :=
  { books := [], next_id := 1 }

/-- `BookDatabase._generate_id`: return the current counter value and
increment the counter. -/
def BookDatabase.generate_id (s : BookDatabase) : Nat × BookDatabase :=
  (s.next_id, { s with next_id := s.next_id + 1 })

/-- `BookDatabase.create`: allocate an id, build the record from the payload
fields (`Book(id=book_id, **book_data.model_dump())`), store it, return it. -/
def BookDatabase.create (s : BookDatabase) (book_data : BookCreate) :
    Book × BookDatabase :=
  let g := s.generate_id
  let book : Book :=
    { id := g.1, title := some book_data.title, author := some book_data.author,
      price := some book_data.price, available := some book_data.available }
  (book, { g.2 with books := dictInsert g.1 book g.2.books })

/-- `BookDatabase.get_all`: `list(self._books.values())`. -/
def BookDatabase.get_all (s : BookDatabase) : List Book :=
  s.books.map Prod.snd

/-- `BookDatabase.get_by_id`: `self._books.get(book_id)`. -/
def BookDatabase.get_by_id (s : BookDatabase) (book_id : Nat) : Option Book :=
  dictGet book_id s.books

/-- `book.model_copy(update=book_data.model_dump(exclude_unset=True))`:
each field explicitly sent in the patch overwrites the stored field with the
sent value (an explicit `null` overwrites with `None` — `model_copy` does not
validate); each unset field keeps the stored value; `id` is not a field of
`BookUpdate`, so it is never touched. -/
def applyPatch (book : Book) (p : BookUpdate) : Book :=
  { id := book.id
    title := p.title.apply book.title
    author := p.author.apply book.author
    price := p.price.apply book.price
    available := p.available.apply book.available }

/-- `BookDatabase.update`: `None` (and no mutation) when the id is absent;
otherwise store and return the patched record. -/
def BookDatabase.update (s : BookDatabase) (book_id : Nat) (book_data : BookUpdate) :
    Option Book × BookDatabase :=
  match dictGet book_id s.books with
  | none => (none, s)
  | some book =>
    let updated_book := applyPatch book book_data
    (some updated_book, { s with books := dictInsert book_id updated_book s.books })

/-- `BookDatabase.delete`: remove and report `True` when the id is present,
report `False` otherwise. -/
def BookDatabase.delete (s : BookDatabase) (book_id : Nat) : Bool × BookDatabase :=
  if dictContains book_id s.books then
    (true, { s with books := dictRemove book_id s.books })
  else
    (false, s)

/-- `BookDatabase.exists`: `book_id in self._books`. -/
def BookDatabase.existsId (s : BookDatabase) (book_id : Nat) : Bool :=
  dictContains book_id s.books

/-- `BookDatabase.count`: `len(self._books)`. -/
def BookDatabase.count (s : BookDatabase) : Nat :=
  s.books.length

/-- One store operation, as issued by the route handlers in
`src/app/routes.py`. -/
inductive Op where
  | create (b : BookCreate) : Op
  | update (id : Nat) (p : BookUpdate) : Op
  | delete (id : Nat) : Op
deriving DecidableEq, Repr

/-- The state reached after one operation. -/
def step (s : BookDatabase) : Op → BookDatabase
  | .create b => (s.create b).2
  | .update id p => (s.update id p).2
  | .delete id => (s.delete id).2

/-- The state reached after a sequence of operations. -/
def run (s : BookDatabase) : List Op → BookDatabase
  | [] => s
  | op :: ops => run (step s op) ops

/-- The ids returned by the `create` calls of a run, in order. -/
def createdIds (s : BookDatabase) : List Op → List Nat
  | [] => []
  | .create b :: ops => (s.create b).1.id :: createdIds (step s (.create b)) ops
  | .update id p :: ops => createdIds (step s (.update id p)) ops
  | .delete id :: ops => createdIds (step s (.delete id)) ops

/-- Number of `create` operations in a sequence. -/
def numCreates : List Op → Nat
  | [] => 0
  | .create _ :: ops => numCreates ops + 1
  | .update _ _ :: ops => numCreates ops
  | .delete _ :: ops => numCreates ops

/-- The operation's payload passes the caller-facing pydantic validation
(`RequestValidationError` otherwise, per `src/main.py`'s exception handler in
the app package). -/
def Op.validated : Op → Bool
  | .create b => b.valid
  | .update _ p => p.valid
  | .delete _ => true

/-- The stored field is present and satisfies the constraint. -/
def okOpt (ok : α → Bool) : Option α → Bool
  | some v => ok v
  | none => false

/-- A stored record satisfies the field constraints of `BookBase`:
a present, non-empty, bounded title and author, a present strictly positive
price, and a present boolean availability flag. -/
def Book.satisfiesConstraints (b : Book) : Bool :=
  okOpt validTitle b.title && okOpt validAuthor b.author &&
    okOpt validPrice b.price && okOpt (fun _ => true) b.available

/-- Every payload of the operation sequence passes the stricter
no-explicit-null validation. -/
def Op.strictValidated : Op → Bool
  | .create b => b.valid
  | .update _ p => p.strictValid
  | .delete _ => true

/-- A book record of the legacy application (`Book` in `src/main.py`): the
caller supplies every field, the `id` included. -/
structure LegacyBook where
  id : Int
  title : String
  author : String
  price : Rat
  available : Bool
deriving DecidableEq, Repr

/-- `add_book` in `src/main.py` (`POST /books` of the legacy application):
append the caller's book — caller-chosen `id` and all — to the global list,
and return the book as received. -/
def add_book (books : List LegacyBook) (book : LegacyBook) :
    List LegacyBook × LegacyBook :=
  (books ++ [book], book)

/-! ### Lemmas about the dictionary model -/

theorem dictGet_dictInsert_self (k : Nat) (v : Book) (l : Books) :
    dictGet k (dictInsert k v l) = some v := by
  induction l with
  | nil => simp [dictInsert, dictGet]
  | cons hd tl ih =>
    obtain ⟨k', v'⟩ := hd
    by_cases h : k' = k
    · simp [dictInsert, dictGet, h]
    · simp [dictInsert, dictGet, h, ih]

theorem dictGet_dictInsert_ne (k k' : Nat) (v : Book) (l : Books) (h : k' ≠ k) :
    dictGet k' (dictInsert k v l) = dictGet k' l := by
  have h' : ¬k = k' := fun e => h e.symm
  induction l with
  | nil => simp [dictInsert, dictGet, h']
  | cons hd tl ih =>
    obtain ⟨k'', v'⟩ := hd
    by_cases hk : k'' = k
    · subst hk
      simp [dictInsert, dictGet, h']
    · simp [dictInsert, dictGet, hk, ih]

theorem mapFst_dictInsert (k : Nat) (v : Book) (l : Books)
    (h : (dictGet k l).isSome = true) :
    (dictInsert k v l).map Prod.fst = l.map Prod.fst := by
  induction l with
  | nil => simp [dictGet] at h
  | cons hd tl ih =>
    obtain ⟨k', v'⟩ := hd
    by_cases hk : k' = k
    · simp [dictInsert, hk]
    · simp [dictGet, hk] at h
      simp [dictInsert, hk, ih h]

theorem dictInsert_eq_append (k : Nat) (v : Book) (l : Books)
    (h : dictGet k l = none) :
    dictInsert k v l = l ++ [(k, v)] := by
  induction l with
  | nil => simp [dictInsert]
  | cons hd tl ih =>
    obtain ⟨k', v'⟩ := hd
    by_cases hk : k' = k
    · simp [dictGet, hk] at h
    · simp [dictGet, hk] at h
      simp [dictInsert, hk, ih h]

theorem dictGet_isSome_iff_mem (k : Nat) (l : Books) :
    (dictGet k l).isSome = true ↔ k ∈ l.map Prod.fst := by
  induction l with
  | nil => simp [dictGet]
  | cons hd tl ih =>
    obtain ⟨k', v'⟩ := hd
    by_cases hk : k' = k
    · simp [dictGet, hk]
    · have hk' : ¬k = k' := fun e => hk e.symm
      simp [dictGet, hk, hk', ih]

theorem dictGet_eq_none_of_not_mem (k : Nat) (l : Books)
    (h : k ∉ l.map Prod.fst) :
    dictGet k l = none := by
  rcases hg : dictGet k l with _ | b
  · rfl
  · exact absurd ((dictGet_isSome_iff_mem k l).1 (by simp [hg])) h

theorem length_dictRemove (k : Nat) (l : Books)
    (h : (dictGet k l).isSome = true) :
    (dictRemove k l).length + 1 = l.length := by
  induction l with
  | nil => simp [dictGet] at h
  | cons hd tl ih =>
    obtain ⟨k', v'⟩ := hd
    by_cases hk : k' = k
    · simp [dictRemove, hk]
    · simp [dictGet, hk] at h
      simp [dictRemove, hk, ih h]

theorem dictGet_dictRemove_self (k : Nat) (l : Books)
    (hnd : (l.map Prod.fst).Nodup) :
    dictGet k (dictRemove k l) = none := by
  induction l with
  | nil => simp [dictRemove, dictGet]
  | cons hd tl ih =>
    obtain ⟨k', v'⟩ := hd
    simp only [List.map_cons, List.nodup_cons] at hnd
    by_cases hk : k' = k
    · subst hk
      simp only [dictRemove, if_pos rfl]
      exact dictGet_eq_none_of_not_mem k' tl hnd.1
    · simp [dictRemove, dictGet, hk, ih hnd.2]

theorem mapFst_dictRemove_subset (k k' : Nat) (l : Books)
    (h : k' ∈ (dictRemove k l).map Prod.fst) :
    k' ∈ l.map Prod.fst := by
  induction l with
  | nil => simp [dictRemove] at h
  | cons hd tl ih =>
    obtain ⟨k'', v⟩ := hd
    by_cases hk : k'' = k
    · simp only [dictRemove, if_pos hk] at h
      simp [h]
    · simp only [dictRemove, if_neg hk, List.map_cons, List.mem_cons] at h
      rcases h with h | h
      · simp [h]
      · simp [ih h]

theorem mapSnd_dictInsert_mem (k : Nat) (v b : Book) (l : Books)
    (h : b ∈ (dictInsert k v l).map Prod.snd) :
    b = v ∨ b ∈ l.map Prod.snd := by
  induction l with
  | nil => simpa [dictInsert] using h
  | cons hd tl ih =>
    obtain ⟨k', v'⟩ := hd
    by_cases hk : k' = k
    · simp only [dictInsert, if_pos hk, List.map_cons, List.mem_cons] at h
      rcases h with h | h
      · exact Or.inl h
      · exact Or.inr (by simp [h])
    · simp only [dictInsert, if_neg hk, List.map_cons, List.mem_cons] at h
      rcases h with h | h
      · exact Or.inr (by simp [h])
      · rcases ih h with h' | h'
        · exact Or.inl h'
        · exact Or.inr (by simp [h'])

theorem mapSnd_dictRemove_subset (k : Nat) (b : Book) (l : Books)
    (h : b ∈ (dictRemove k l).map Prod.snd) :
    b ∈ l.map Prod.snd := by
  induction l with
  | nil => simp [dictRemove] at h
  | cons hd tl ih =>
    obtain ⟨k'', v⟩ := hd
    by_cases hk : k'' = k
    · simp only [dictRemove, if_pos hk] at h
      simp [h]
    · simp only [dictRemove, if_neg hk, List.map_cons, List.mem_cons] at h
      rcases h with h | h
      · simp [h]
      · simp [ih h]

theorem mem_mapSnd_of_dictGet (k : Nat) (b : Book) (l : Books)
    (h : dictGet k l = some b) :
    b ∈ l.map Prod.snd := by
  induction l with
  | nil => simp [dictGet] at h
  | cons hd tl ih =>
    obtain ⟨k', v'⟩ := hd
    by_cases hk : k' = k
    · simp only [dictGet, if_pos hk, Option.some.injEq] at h
      simp [h]
    · simp only [dictGet, if_neg hk] at h
      simp [ih h]

theorem dictGet_of_mem_nodup (k : Nat) (b : Book) (l : Books)
    (hnd : (l.map Prod.fst).Nodup) (h : (k, b) ∈ l) :
    dictGet k l = some b := by
  induction l with
  | nil => simp at h
  | cons hd tl ih =>
    obtain ⟨k', v'⟩ := hd
    simp only [List.map_cons, List.nodup_cons] at hnd
    rcases List.mem_cons.1 h with h | h
    · injection h with h1 h2
      subst h1
      subst h2
      simp [dictGet]
    · by_cases hk : k' = k
      · subst hk
        exact absurd (by simpa using List.mem_map_of_mem Prod.fst h) hnd.1
      · simp [dictGet, hk, ih hnd.2 h]

/-! ### Lemmas about the store operations -/

theorem create_fst_id (s : BookDatabase) (b : BookCreate) :
    (s.create b).1.id = s.next_id := rfl

theorem create_next_id (s : BookDatabase) (b : BookCreate) :
    (s.create b).2.next_id = s.next_id + 1 := rfl

theorem update_next_id (s : BookDatabase) (id : Nat) (p : BookUpdate) :
    (s.update id p).2.next_id = s.next_id := by
  unfold BookDatabase.update
  rcases dictGet id s.books with _ | b <;> rfl

theorem delete_next_id (s : BookDatabase) (id : Nat) :
    (s.delete id).2.next_id = s.next_id := by
  unfold BookDatabase.delete
  split <;> rfl

theorem next_id_le_step (s : BookDatabase) (op : Op) :
    s.next_id ≤ (step s op).next_id := by
  cases op with
  | create b =>
    rw [show (step s (Op.create b)).next_id = s.next_id + 1 from rfl]
    exact Nat.le_succ _
  | update id p => exact le_of_eq (update_next_id s id p).symm
  | delete id => exact le_of_eq (delete_next_id s id).symm

theorem next_id_le_run (ops : List Op) :
    ∀ s : BookDatabase, s.next_id ≤ (run s ops).next_id := by
  induction ops with
  | nil => intro s; exact Nat.le_refl _
  | cons op t ih =>
    intro s
    exact (next_id_le_step s op).trans (ih (step s op))

/-- Every live key is below the counter; holds in every reachable state and
is what makes a deleted id permanently retired. -/
def KeysBelow (s : BookDatabase) : Prop :=
  ∀ k ∈ s.books.map Prod.fst, k < s.next_id

theorem keysBelow_init : KeysBelow BookDatabase.init := by
  intro k hk
  simp [BookDatabase.init] at hk

theorem keysBelow_step (s : BookDatabase) (op : Op) (h : KeysBelow s) :
    KeysBelow (step s op) := by
  cases op with
  | create b =>
    intro k hk
    have hnone : dictGet s.next_id s.books = none := by
      apply dictGet_eq_none_of_not_mem
      intro hmem
      exact absurd (h _ hmem) (Nat.lt_irrefl _)
    simp only [step, BookDatabase.create, BookDatabase.generate_id] at hk ⊢
    rw [dictInsert_eq_append _ _ _ hnone] at hk
    simp only [List.map_append, List.mem_append, List.map_cons] at hk
    rcases hk with hk | hk
    · exact Nat.lt_succ_of_lt (h _ hk)
    · simp at hk
      simp [hk]
  | update id p =>
    intro k hk
    rw [show step s (Op.update id p) = (s.update id p).2 from rfl] at hk ⊢
    rw [update_next_id]
    unfold BookDatabase.update at hk
    rcases hg : dictGet id s.books with _ | b
    · rw [hg] at hk
      exact h _ hk
    · rw [hg] at hk
      simp only at hk
      rw [mapFst_dictInsert _ _ _ (by simp [hg])] at hk
      exact h _ hk
  | delete id =>
    intro k hk
    rw [show step s (Op.delete id) = (s.delete id).2 from rfl] at hk ⊢
    rw [delete_next_id]
    unfold BookDatabase.delete at hk
    by_cases hc : dictContains id s.books
    · rw [if_pos hc] at hk
      exact h _ (mapFst_dictRemove_subset _ _ _ hk)
    · rw [if_neg hc] at hk
      exact h _ hk

theorem keysBelow_run (ops : List Op) :
    ∀ s : BookDatabase, KeysBelow s → KeysBelow (run s ops) := by
  induction ops with
  | nil => intro s h; exact h
  | cons op t ih =>
    intro s h
    exact ih (step s op) (keysBelow_step s op h)

theorem createdIds_eq_range (ops : List Op) :
    ∀ s : BookDatabase,
      createdIds s ops = List.range' s.next_id (numCreates ops) := by
  induction ops with
  | nil => intro s; simp [createdIds, numCreates]
  | cons op t ih =>
    intro s
    cases op with
    | create b =>
      simp only [createdIds, numCreates, ih, create_fst_id]
      rw [show step s (Op.create b) = (s.create b).2 from rfl, create_next_id]
      rfl
    | update id p =>
      simp only [createdIds, numCreates, ih]
      rw [show step s (Op.update id p) = (s.update id p).2 from rfl, update_next_id]
    | delete id =>
      simp only [createdIds, numCreates, ih]
      rw [show step s (Op.delete id) = (s.delete id).2 from rfl, delete_next_id]

theorem delete_fst_true_iff (s : BookDatabase) (id : Nat) :
    (s.delete id).1 = true ↔ dictContains id s.books = true := by
  unfold BookDatabase.delete
  by_cases hc : dictContains id s.books <;> simp [hc]

/-! ### Preservation of the field constraints -/

theorem okOpt_apply (ok : α → Bool) (old : Option α) (p : Patch α)
    (h1 : okOpt ok old = true) (h2 : p.fieldStrictValid ok = true) :
    okOpt ok (p.apply old) = true := by
  cases p with
  | unset => simpa [Patch.apply] using h1
  | set v => cases v <;> simp_all [Patch.apply, Patch.fieldStrictValid, okOpt]

theorem applyPatch_satisfies (b : Book) (p : BookUpdate)
    (hb : b.satisfiesConstraints = true) (hp : p.strictValid = true) :
    (applyPatch b p).satisfiesConstraints = true := by
  unfold Book.satisfiesConstraints at hb ⊢
  unfold BookUpdate.strictValid at hp
  simp only [applyPatch, Bool.and_eq_true] at hb hp ⊢
  obtain ⟨⟨⟨ht, ha⟩, hpr⟩, hav⟩ := hb
  obtain ⟨⟨⟨pt, pa⟩, ppr⟩, pav⟩ := hp
  exact ⟨⟨⟨okOpt_apply _ _ _ ht pt, okOpt_apply _ _ _ ha pa⟩,
    okOpt_apply _ _ _ hpr ppr⟩, okOpt_apply _ _ _ hav pav⟩

theorem create_book_satisfies (s : BookDatabase) (b : BookCreate)
    (h : b.valid = true) :
    (s.create b).1.satisfiesConstraints = true := by
  unfold BookCreate.valid at h
  simp only [Bool.and_eq_true] at h
  obtain ⟨⟨ht, ha⟩, hp⟩ := h
  simp [BookDatabase.create, BookDatabase.generate_id, Book.satisfiesConstraints,
    okOpt, ht, ha, hp]

/-- Every record currently in the store satisfies the `BookBase` field
constraints. -/
def AllOK (s : BookDatabase) : Prop :=
  ∀ b ∈ s.get_all, b.satisfiesConstraints = true

theorem allOK_init : AllOK BookDatabase.init := by
  intro b hb
  simp [BookDatabase.init, BookDatabase.get_all] at hb

theorem allOK_step (s : BookDatabase) (op : Op) (h : AllOK s)
    (hop : op.strictValidated = true) : AllOK (step s op) := by
  cases op with
  | create b =>
    intro x hx
    simp only [Op.strictValidated] at hop
    simp only [step, BookDatabase.create, BookDatabase.generate_id,
      BookDatabase.get_all] at hx
    rcases mapSnd_dictInsert_mem _ _ _ _ hx with hx | hx
    · subst hx
      exact create_book_satisfies s b hop
    · exact h x hx
  | update id p =>
    intro x hx
    simp only [Op.strictValidated] at hop
    rw [show step s (Op.update id p) = (s.update id p).2 from rfl] at hx
    unfold BookDatabase.update at hx
    rcases hg : dictGet id s.books with _ | book
    · rw [hg] at hx
      exact h x hx
    · rw [hg] at hx
      simp only [BookDatabase.get_all] at hx
      rcases mapSnd_dictInsert_mem _ _ _ _ hx with hx | hx
      · subst hx
        have hbook : book.satisfiesConstraints = true :=
          h book (mem_mapSnd_of_dictGet _ _ _ hg)
        exact applyPatch_satisfies book p hbook hop
      · exact h x hx
  | delete id =>
    intro x hx
    rw [show step s (Op.delete id) = (s.delete id).2 from rfl] at hx
    unfold BookDatabase.delete at hx
    by_cases hc : dictContains id s.books
    · rw [if_pos hc] at hx
      simp only [BookDatabase.get_all] at hx
      exact h x (mapSnd_dictRemove_subset _ _ _ hx)
    · rw [if_neg hc] at hx
      exact h x hx

theorem allOK_run (ops : List Op) :
    ∀ s : BookDatabase, AllOK s → ops.all Op.strictValidated = true →
      AllOK (run s ops) := by
  induction ops with
  | nil => intro s h _; exact h
  | cons op t ih =>
    intro s h hv
    simp only [List.all_cons, Bool.and_eq_true] at hv
    exact ih (step s op) (allOK_step s op h hv.1) hv.2

/-! ### Concrete sample values for the witnesses -/

/-- The create payload of the spec's example scenario. -/
def sampleCreate : BookCreate :=
  { title := "Clean Code", author := "Robert C. Martin", price := 29, available := true }

/-- The store after one `create` of `sampleCreate` (holds the single id 1). -/
def sampleDb : BookDatabase :=
  (BookDatabase.init.create sampleCreate).2

/-- The record returned by that `create`. -/
def sampleBook : Book :=
  (BookDatabase.init.create sampleCreate).1

/-- A patch that explicitly sends only a new price. -/
def priceOnlyPatch : BookUpdate :=
  { title := Patch.unset, author := Patch.unset,
    price := Patch.set (some 19), available := Patch.unset }

/-- A patch whose only sent field is an explicit `null` title — it passes the
pydantic validation of `BookUpdate`. -/
def nullTitlePatch : BookUpdate :=
  { title := Patch.set none, author := Patch.unset,
    price := Patch.unset, available := Patch.unset }

/-- A legacy payload with the caller-chosen id 7. -/
def dune7 : LegacyBook :=
  { id := 7, title := "Dune", author := "Frank Herbert", price := 15, available := true }

/-! ### The claims -/

/-- C1: over any sequence of store operations starting from the fresh store,
the ids returned by the `create` calls are exactly `1, 2, …, n` — pairwise
distinct, strictly increasing, starting at 1 — and once a `delete id`
succeeds, no later `create` (after any further operations) ever returns that
id again: the counter is independent of current membership. -/
theorem create_ids_fresh_monotone :
    (∀ ops : List Op,
      createdIds BookDatabase.init ops = List.range' 1 (numCreates ops)) ∧
    (∀ (ops1 : List Op) (id : Nat) (ops2 : List Op) (b : BookCreate),
      ((run BookDatabase.init ops1).delete id).1 = true →
      ((run ((run BookDatabase.init ops1).delete id).2 ops2).create b).1.id ≠ id) := by
  constructor
  · intro ops
    rw [createdIds_eq_range]
    rfl
  · intro ops1 id ops2 b h
    have hkb : KeysBelow (run BookDatabase.init ops1) :=
      keysBelow_run ops1 BookDatabase.init keysBelow_init
    have hc : dictContains id (run BookDatabase.init ops1).books = true :=
      (delete_fst_true_iff _ id).1 h
    have hid : id < (run BookDatabase.init ops1).next_id :=
      hkb id ((dictGet_isSome_iff_mem id _).1 hc)
    have h3 : (run BookDatabase.init ops1).next_id ≤
        (run ((run BookDatabase.init ops1).delete id).2 ops2).next_id := by
      rw [← delete_next_id (run BookDatabase.init ops1) id]
      exact next_id_le_run ops2 _
    rw [create_fst_id]
    exact Nat.ne_of_gt (Nat.lt_of_lt_of_le hid h3)

/-- Witness for C1: create one record (id 1), delete it successfully, and the
next create returns id 2, not 1. -/
theorem create_ids_fresh_monotone_witness :
    ((run BookDatabase.init [Op.create sampleCreate]).delete 1).1 = true ∧
    ((run ((run BookDatabase.init [Op.create sampleCreate]).delete 1).2
      []).create sampleCreate).1.id ≠ 1 :=
  ⟨by decide, create_ids_fresh_monotone.2 [Op.create sampleCreate] 1 []
    sampleCreate (by decide)⟩

/-- C2: when id is live with stored record `b`, `update id p` stores and
returns `applyPatch b p`, whose fields are: the prior value for every field
the patch leaves unset, the patch's sent value (its explicit `null` included)
for every field the patch sets, and the unchanged `id`. -/
theorem update_merge_semantics (s : BookDatabase) (id : Nat) (b : Book)
    (p : BookUpdate) (h : s.get_by_id id = some b) :
    (s.update id p).1 = some (applyPatch b p) ∧
    ((s.update id p).2).get_by_id id = some (applyPatch b p) ∧
    (applyPatch b p).id = b.id ∧
    (p.title = Patch.unset → (applyPatch b p).title = b.title) ∧
    (∀ v, p.title = Patch.set v → (applyPatch b p).title = v) ∧
    (p.author = Patch.unset → (applyPatch b p).author = b.author) ∧
    (∀ v, p.author = Patch.set v → (applyPatch b p).author = v) ∧
    (p.price = Patch.unset → (applyPatch b p).price = b.price) ∧
    (∀ v, p.price = Patch.set v → (applyPatch b p).price = v) ∧
    (p.available = Patch.unset → (applyPatch b p).available = b.available) ∧
    (∀ v, p.available = Patch.set v → (applyPatch b p).available = v) := by
  have hg : dictGet id s.books = some b := h
  refine ⟨?_, ?_, rfl, ?_, ?_, ?_, ?_, ?_, ?_, ?_, ?_⟩
  · simp [BookDatabase.update, hg]
  · simp [BookDatabase.update, hg, BookDatabase.get_by_id, dictGet_dictInsert_self]
  · intro hp
    show p.title.apply b.title = b.title
    rw [hp]
    rfl
  · intro v hp
    show p.title.apply b.title = v
    rw [hp]
    rfl
  · intro hp
    show p.author.apply b.author = b.author
    rw [hp]
    rfl
  · intro v hp
    show p.author.apply b.author = v
    rw [hp]
    rfl
  · intro hp
    show p.price.apply b.price = b.price
    rw [hp]
    rfl
  · intro v hp
    show p.price.apply b.price = v
    rw [hp]
    rfl
  · intro hp
    show p.available.apply b.available = b.available
    rw [hp]
    rfl
  · intro v hp
    show p.available.apply b.available = v
    rw [hp]
    rfl

/-- Witness for C2: in the one-record store, a price-only patch of record 1
is stored and returned as the merged record, whose id is unchanged. -/
theorem update_merge_semantics_witness :
    sampleDb.get_by_id 1 = some sampleBook ∧
    (sampleDb.update 1 priceOnlyPatch).1 = some (applyPatch sampleBook priceOnlyPatch) ∧
    ((sampleDb.update 1 priceOnlyPatch).2).get_by_id 1 =
      some (applyPatch sampleBook priceOnlyPatch) ∧
    (applyPatch sampleBook priceOnlyPatch).id = sampleBook.id := by
  have h : sampleDb.get_by_id 1 = some sampleBook := rfl
  have m := update_merge_semantics sampleDb 1 sampleBook priceOnlyPatch h
  exact ⟨h, m.1, m.2.1, m.2.2.1⟩

/-- C3 counterexample: the two-operation sequence "create a valid book, then
patch it with an explicit `null` title" passes the caller-facing pydantic
validation of every payload, yet leaves the store holding a record whose
title is `None` — the field constraints do not hold in every reachable
state. -/
theorem constraints_violated_by_null_patch :
    ([Op.create sampleCreate, Op.update 1 nullTitlePatch].all Op.validated
      = true) ∧
    ((run BookDatabase.init
        [Op.create sampleCreate, Op.update 1 nullTitlePatch]).get_all.all
      Book.satisfiesConstraints = false) :=
  ⟨by decide, by decide⟩

/-- C3 (amended): if moreover no patch field is an explicit `null` (every
sent field carries a constraint-satisfying value), then every record in
every reachable store state satisfies the `BookBase` field constraints. -/
theorem constraints_invariant_strict (ops : List Op)
    (h : ops.all Op.strictValidated = true) :
    (run BookDatabase.init ops).get_all.all Book.satisfiesConstraints = true := by
  rw [List.all_eq_true]
  exact allOK_run ops BookDatabase.init allOK_init h

/-- Witness for C3 (amended): one valid create yields a store whose every
record satisfies the constraints. -/
theorem constraints_invariant_strict_witness :
    ([Op.create sampleCreate].all Op.strictValidated = true) ∧
    ((run BookDatabase.init [Op.create sampleCreate]).get_all.all
      Book.satisfiesConstraints = true) :=
  ⟨by decide, constraints_invariant_strict [Op.create sampleCreate] (by decide)⟩

/-- C4 counterexample: the legacy `POST /books` handler (`add_book` in
`src/main.py`) returns the caller-chosen id 7 untouched — not a counter
value — and a second create with the same payload yields two stored records
sharing id 7. -/
theorem legacy_create_accepts_caller_id :
    (add_book [] dune7).2.id = 7 ∧
    ((add_book (add_book [] dune7).1 dune7).1.map LegacyBook.id = [7, 7]) :=
  ⟨rfl, rfl⟩

/-- C4 (amended): for create requests handled by the record store
(`BookDatabase.create`), the id is the store's counter value, and is the
same whatever payload the caller sends — `BookCreate` carries no id at all,
so the caller cannot choose or collide an id through the store. -/
theorem store_create_id_counter_assigned (s : BookDatabase)
    (b1 b2 : BookCreate) :
    (s.create b1).1.id = s.next_id ∧ (s.create b1).1.id = (s.create b2).1.id :=
  ⟨rfl, rfl⟩

/-- C5: `create` followed by `get_by_id` on the returned record's id yields
exactly the returned record, in any store state. -/
theorem create_get_by_id_roundtrip (s : BookDatabase) (b : BookCreate) :
    ((s.create b).2).get_by_id (s.create b).1.id = some (s.create b).1 := by
  simp only [BookDatabase.create, BookDatabase.generate_id, BookDatabase.get_by_id]
  exact dictGet_dictInsert_self _ _ _

/-- C6: on an id with no live record, `update` returns `None`, `delete`
returns `False`, `get_by_id` returns `None`, and both mutators leave the
store state (hence `count`) entirely unchanged; absence is a return value of
the total store operations, never an exception. -/
theorem missing_id_absence_no_mutation (s : BookDatabase) (id : Nat)
    (p : BookUpdate) (h : s.get_by_id id = none) :
    (s.update id p).1 = none ∧ (s.update id p).2 = s ∧
    (s.update id p).2.count = s.count ∧
    (s.delete id).1 = false ∧ (s.delete id).2 = s ∧
    (s.delete id).2.count = s.count := by
  have hg : dictGet id s.books = none := h
  have hu : s.update id p = (none, s) := by simp [BookDatabase.update, hg]
  have hc : dictContains id s.books = false := by simp [dictContains, hg]
  have hd : s.delete id = (false, s) := by simp [BookDatabase.delete, hc]
  rw [hu, hd]
  exact ⟨rfl, rfl, rfl, rfl, rfl, rfl⟩

/-- Witness for C6: id 1 is absent from the fresh store; update and delete
report absence and leave the store unchanged. -/
theorem missing_id_absence_no_mutation_witness :
    BookDatabase.init.get_by_id 1 = none ∧
    (BookDatabase.init.update 1 priceOnlyPatch).1 = none ∧
    (BookDatabase.init.update 1 priceOnlyPatch).2 = BookDatabase.init ∧
    (BookDatabase.init.delete 1).1 = false ∧
    (BookDatabase.init.delete 1).2 = BookDatabase.init := by
  have m := missing_id_absence_no_mutation BookDatabase.init 1 priceOnlyPatch rfl
  exact ⟨rfl, m.1, m.2.1, m.2.2.2.1, m.2.2.2.2.1⟩

/-- C7: deleting a live id succeeds, after which the id reads as absent and
`count` has dropped by exactly one; deleting it again fails and leaves
`count` unchanged. -/
theorem delete_existing_semantics (s : BookDatabase) (id : Nat)
    (hnd : (s.books.map Prod.fst).Nodup) (h : s.existsId id = true) :
    (s.delete id).1 = true ∧
    ((s.delete id).2).get_by_id id = none ∧
    ((s.delete id).2).count + 1 = s.count ∧
    (((s.delete id).2).delete id).1 = false ∧
    ((((s.delete id).2).delete id).2).count = ((s.delete id).2).count := by
  have hc : dictContains id s.books = true := h
  have hd : s.delete id = (true, { s with books := dictRemove id s.books }) := by
    simp [BookDatabase.delete, hc]
  have hg2 : dictGet id (dictRemove id s.books) = none :=
    dictGet_dictRemove_self id s.books hnd
  have hc2 : dictContains id (dictRemove id s.books) = false := by
    simp [dictContains, hg2]
  rw [hd]
  refine ⟨rfl, hg2, ?_, ?_, ?_⟩
  · exact length_dictRemove id s.books (by simpa [dictContains] using hc)
  · simp [BookDatabase.delete, hc2]
  · simp [BookDatabase.delete, hc2]

/-- Witness for C7: the one-record store holds id 1; deleting it succeeds,
id 1 then reads absent, count drops from 1 to 0, and a second delete fails. -/
theorem delete_existing_semantics_witness :
    ((sampleDb.books.map Prod.fst).Nodup) ∧ (sampleDb.existsId 1 = true) ∧
    (sampleDb.delete 1).1 = true ∧
    ((sampleDb.delete 1).2).get_by_id 1 = none ∧
    ((sampleDb.delete 1).2).count + 1 = sampleDb.count ∧
    (((sampleDb.delete 1).2).delete 1).1 = false := by
  have m := delete_existing_semantics sampleDb 1 (by decide) rfl
  exact ⟨by decide, rfl, m.1, m.2.1, m.2.2.1, m.2.2.2.1⟩

/-- C8: `get_all` is exactly the live records (a book is listed iff some id
retrieves it) in insertion order: a create appends its record at the end, an
update keeps every record at its original position (the key sequence is
untouched), and the empty store yields the empty list — a list, never an
absent value, by the very type of `get_all`. -/
theorem get_all_exact_insertion_order (s : BookDatabase)
    (hnd : (s.books.map Prod.fst).Nodup)
    (hkb : ∀ k ∈ s.books.map Prod.fst, k < s.next_id) :
    (s.count = 0 → s.get_all = []) ∧
    (∀ b : Book, b ∈ s.get_all ↔ ∃ k, s.get_by_id k = some b) ∧
    (∀ bc : BookCreate,
      ((s.create bc).2).get_all = s.get_all ++ [(s.create bc).1]) ∧
    (∀ (id : Nat) (p : BookUpdate),
      ((s.update id p).2).books.map Prod.fst = s.books.map Prod.fst) := by
  refine ⟨?_, ?_, ?_, ?_⟩
  · intro h0
    have : s.books = [] := List.length_eq_zero.mp h0
    simp [BookDatabase.get_all, this]
  · intro b
    constructor
    · intro hb
      obtain ⟨⟨k, b'⟩, hmem, hb'⟩ := List.mem_map.1 hb
      subst hb'
      exact ⟨k, dictGet_of_mem_nodup k b' s.books hnd hmem⟩
    · rintro ⟨k, hk⟩
      exact mem_mapSnd_of_dictGet k b s.books hk
  · intro bc
    have hnone : dictGet s.next_id s.books = none := by
      apply dictGet_eq_none_of_not_mem
      intro hmem
      exact absurd (hkb _ hmem) (Nat.lt_irrefl _)
    simp only [BookDatabase.create, BookDatabase.generate_id, BookDatabase.get_all]
    rw [dictInsert_eq_append _ _ _ hnone, List.map_append]
    rfl
  · intro id p
    rcases hg : dictGet id s.books with _ | book
    · simp [BookDatabase.update, hg]
    · simp only [BookDatabase.update, hg]
      exact mapFst_dictInsert _ _ _ (by simp [hg])

/-- Witness for C8: the one-record store has distinct keys below the
counter, and creating a second record appends it at the end of `get_all`. -/
theorem get_all_exact_insertion_order_witness :
    ((sampleDb.books.map Prod.fst).Nodup) ∧
    (((sampleDb.create sampleCreate).2).get_all =
      sampleDb.get_all ++ [(sampleDb.create sampleCreate).1]) := by
  have m := get_all_exact_insertion_order sampleDb (by decide) (by decide)
  exact ⟨by decide, m.2.2.1 sampleCreate⟩

/-- C10: in every store state, `exists` answers exactly the definedness of
`get_by_id`, and `count` equals the length of `get_all`. -/
theorem aux_queries_agree (s : BookDatabase) (id : Nat) :
    s.existsId id = (s.get_by_id id).isSome ∧ s.count = s.get_all.length := by
  exact ⟨rfl, by simp [BookDatabase.count, BookDatabase.get_all]⟩

end Bookstore
